import Mathlib

/-!
Verification of the schedule-resolution core of the homeworkAPP repository
(student_app.py, middle_school_app.py, all_classes_app.py).

Embedding conventions:
* A calendar date is represented by its day number counted from 1970-01-01
  (day 0), so that the Python method date.weekday() becomes
  (n + 3) % 7 (1970-01-01 was a Thursday, and Python numbers Monday as 0).
  FIRST_DAY (2025-08-14, a Thursday) is day 20314 on this scale.
* A time of day (Python datetime.time) is represented by minutes since
  midnight; comparison of times coincides with Nat comparison.
* Python dicts that the code consults with .get are represented as
  association lists consulted with List.lookup.
* The field named end in the Python ClassTime dataclass is called endTime
  here because end is a reserved word in Lean.
* The module-level mutable LUNCH_OPTION global of student_app.py is passed
  to each function as an explicit global_option argument; the constant
  LUNCH_OPTION below is its initial (default) value "2".
* The unbounded while-True search loops of get_next_class and
  get_next_class_ms are embedded with an explicit fuel argument; the
  top-level wrappers supply fuel that the termination theorems below prove
  sufficient for every valid period.
-/

/-- Python date.weekday() for the day numbered n (days since 1970-01-01):
Monday is 0 and Sunday is 6. -/
def pyWeekday (n : Nat) : Nat := (n + 3) % 7

/-- Representation of datetime.time(h, m) as minutes since midnight. -/
def dttime (h m : Nat) : Nat := h * 60 + m

/-- ClassTime dataclass of student_app.py (start/end times of one block).
The Python field end is renamed endTime (reserved word in Lean). -/
structure ClassTime where
  start : Nat
  endTime : Nat
deriving DecidableEq, Repr

/-- LETTERS of student_app.py: the seven-letter rotation alphabet. -/
def LETTERS : List String := ["A", "B", "C", "D", "E", "F", "G"]

/-- PERIOD_ORDER of student_app.py: mapping from letter day to the sequence
of periods that meet, as an association list. -/
def PERIOD_ORDER : List (String × List Nat) :=
  [("A", [1, 2, 3, 4, 5]),
   ("B", [6, 7, 1, 2, 3]),
   ("C", [4, 5, 6, 7, 1]),
   ("D", [2, 3, 4, 5, 6]),
   ("E", [7, 1, 2, 3, 4]),
   ("F", [5, 6, 7, 1, 2]),
   ("G", [3, 4, 5, 6, 7])]

/-- The expression PERIOD_ORDER.get(letter, []) used at every call site in
the source. -/
def PERIOD_ORDER_get (letter : String) : List Nat :=
  (PERIOD_ORDER.lookup letter).getD []

/-- FIRST_DAY of student_app.py: date(2025, 8, 14) as a day number
(20314 days after 1970-01-01; it is a Thursday: pyWeekday 20314 = 3). -/
def FIRST_DAY : Nat := 20314

/-- Initial value of the module-level LUNCH_OPTION global of
student_app.py ("2", second lunch). -/
def LUNCH_OPTION : String := "2"

/-- Python expression lunch_option or LUNCH_OPTION: None and the empty
string are falsy and fall back to the global value. -/
def selected_lunch_option (lunch_option : Option String) (global_option : String) : String :=
  match lunch_option with
  | none => global_option
  | some s => if s = "" then global_option else s

/-- get_time_slots of student_app.py: the five Upper School blocks for a
day, with the midday block chosen by the lunch selector. -/
def get_time_slots (is_wednesday : Bool) (lunch_option : Option String)
    (global_option : String) : List ClassTime :=
  let selected := selected_lunch_option lunch_option global_option
  let midday : ClassTime :=
    if selected = "1" then ClassTime.mk (dttime 12 5) (dttime 13 5)
    else ClassTime.mk (dttime 11 25) (dttime 12 25)
  if !is_wednesday then
    [ClassTime.mk (dttime 8 30) (dttime 9 30),
     ClassTime.mk (dttime 9 35) (dttime 10 35),
     midday,
     ClassTime.mk (dttime 13 10) (dttime 14 10),
     ClassTime.mk (dttime 14 15) (dttime 15 15)]
  else
    [ClassTime.mk (dttime 9 15) (dttime 10 15),
     ClassTime.mk (dttime 10 20) (dttime 11 20),
     midday,
     ClassTime.mk (dttime 13 10) (dttime 14 10),
     ClassTime.mk (dttime 14 15) (dttime 15 15)]

/-- The counting loop of get_letter_day: number of weekdays (Mon-Fri) among
the steps days day+1, day+2, ..., day+steps. -/
def count_weekdays : Nat → Nat → Nat
  | _, 0 => 0
  | day, steps + 1 =>
    (if pyWeekday (day + 1) < 5 then 1 else 0) + count_weekdays (day + 1) steps

/-- get_letter_day of student_app.py: letter day for a date; dates at or
before FIRST_DAY yield the first letter. -/
def get_letter_day (current_date : Nat) : String :=
  if current_date ≤ FIRST_DAY then LETTERS.getD 0 "A"
  else
    LETTERS.getD (count_weekdays FIRST_DAY (current_date - FIRST_DAY) % LETTERS.length) "A"

/-- Loop body of get_next_class of student_app.py, with explicit fuel.
Each iteration of the Python while-True loop examines one candidate date
and advances by one calendar day, exactly as encoded here. -/
def get_next_class_fuel (period : Nat) (lunch_option : Option String)
    (global_option : String) : Nat → Nat → Option (Nat × ClassTime)
  | 0, _ => none
  | fuel + 1, next_date =>
    if 5 ≤ pyWeekday next_date then
      get_next_class_fuel period lunch_option global_option fuel (next_date + 1)
    else
      let order := PERIOD_ORDER_get (get_letter_day next_date)
      if period ∈ order then
        let idx := order.indexOf period
        let slots := get_time_slots (pyWeekday next_date == 2) lunch_option global_option
        if idx < slots.length then
          some (next_date, slots.getD idx (ClassTime.mk 0 0))
        else
          get_next_class_fuel period lunch_option global_option fuel (next_date + 1)
      else
        get_next_class_fuel period lunch_option global_option fuel (next_date + 1)

/-- get_next_class of student_app.py.  The Python loop is unbounded; the
fuel supplied here (enough days to pass FIRST_DAY plus eleven) is proved
sufficient for every period in 1..7 by the termination theorems below. -/
def get_next_class (period from_date : Nat) (lunch_option : Option String)
    (global_option : String) : Option (Nat × ClassTime) :=
  get_next_class_fuel period lunch_option global_option
    (FIRST_DAY - from_date + 11) (from_date + 1)

/-- MSLunchWindow dataclass of middle_school_app.py (minutes since
midnight). -/
structure MSLunchWindow where
  start_min : Nat
  end_min : Nat
deriving DecidableEq, Repr

/-- Helper hm of middle_school_app.py. -/
def hm (h m : Nat) : Nat := h * 60 + m

/-- MS_LUNCH_WINDOWS_REGULAR of middle_school_app.py. -/
def MS_LUNCH_WINDOWS_REGULAR : List (Nat × MSLunchWindow) :=
  [(8, MSLunchWindow.mk (hm 12 5) (hm 12 25)),
   (6, MSLunchWindow.mk (hm 12 25) (hm 12 40)),
   (7, MSLunchWindow.mk (hm 12 40) (hm 13 0))]

/-- MS_LUNCH_WINDOWS_ALT_OCT6 of middle_school_app.py. -/
def MS_LUNCH_WINDOWS_ALT_OCT6 : List (Nat × MSLunchWindow) :=
  [(8, MSLunchWindow.mk (hm 11 55) (hm 12 15)),
   (6, MSLunchWindow.mk (hm 12 15) (hm 12 30)),
   (7, MSLunchWindow.mk (hm 12 30) (hm 12 45))]

/-- MS_LUNCH_WINDOWS_ALT_NOV17 of middle_school_app.py. -/
def MS_LUNCH_WINDOWS_ALT_NOV17 : List (Nat × MSLunchWindow) :=
  [(8, MSLunchWindow.mk (hm 11 45) (hm 12 5)),
   (6, MSLunchWindow.mk (hm 12 5) (hm 12 20)),
   (7, MSLunchWindow.mk (hm 12 20) (hm 12 40))]

/-- MS_LUNCH_OVERRIDES of middle_school_app.py: ((start month, start day),
(end month, end day), table) triples in declaration order. -/
def MS_LUNCH_OVERRIDES :
    List ((Nat × Nat) × (Nat × Nat) × List (Nat × MSLunchWindow)) :=
  [((10, 6), (10, 10), MS_LUNCH_WINDOWS_ALT_OCT6),
   ((11, 17), (11, 21), MS_LUNCH_WINDOWS_ALT_NOV17)]

/-- The for-loop of get_ms_lunch_window_for over MS_LUNCH_OVERRIDES: the
first override whose month/day range contains (m, d), inclusive on both
ends, and whose table contains the grade.  The Python comparison
(m > sm or (m == sm and d >= sd)) and (m < em or (m == em and d <= ed))
is transcribed literally. -/
def ms_override_lookup :
    List ((Nat × Nat) × (Nat × Nat) × List (Nat × MSLunchWindow)) →
    Nat → Nat → Nat → Option MSLunchWindow
  | [], _, _, _ => none
  | ((sm, sd), (em, ed), table) :: rest, m, d, grade =>
    if (sm < m ∨ (m = sm ∧ sd ≤ d)) ∧ (m < em ∨ (m = em ∧ d ≤ ed)) then
      match table.lookup grade with
      | some w => some w
      | none => ms_override_lookup rest m d grade
    else ms_override_lookup rest m d grade

/-- get_ms_lunch_window_for of middle_school_app.py.  The Python function
receives a date object and immediately reads only date_obj.month and
date_obj.day, which are the two arguments here.  The final fallback is
MS_LUNCH_WINDOWS_REGULAR.get(grade, MS_LUNCH_WINDOWS_REGULAR[8]). -/
def get_ms_lunch_window_for (month day grade : Nat) : MSLunchWindow :=
  match ms_override_lookup MS_LUNCH_OVERRIDES month day grade with
  | some w => w
  | none =>
    (MS_LUNCH_WINDOWS_REGULAR.lookup grade).getD
      ((MS_LUNCH_WINDOWS_REGULAR.lookup 8).getD (MSLunchWindow.mk 0 0))

/-- get_schedule_for_day of middle_school_app.py: the five Middle School
blocks for a weekday index (0 = Monday ... 6 = Sunday). -/
def get_schedule_for_day (day_of_week : Nat) : List ClassTime :=
  if day_of_week = 2 then
    [ClassTime.mk (dttime 8 55) (dttime 9 50),
     ClassTime.mk (dttime 9 55) (dttime 10 50),
     ClassTime.mk (dttime 11 10) (dttime 12 5),
     ClassTime.mk (dttime 13 5) (dttime 14 0),
     ClassTime.mk (dttime 14 5) (dttime 15 0)]
  else if day_of_week = 3 then
    [ClassTime.mk (dttime 8 30) (dttime 9 25),
     ClassTime.mk (dttime 9 30) (dttime 10 25),
     ClassTime.mk (dttime 11 10) (dttime 12 5),
     ClassTime.mk (dttime 13 5) (dttime 14 0),
     ClassTime.mk (dttime 14 5) (dttime 15 0)]
  else
    [ClassTime.mk (dttime 8 45) (dttime 9 40),
     ClassTime.mk (dttime 9 45) (dttime 10 40),
     ClassTime.mk (dttime 11 10) (dttime 12 5),
     ClassTime.mk (dttime 13 5) (dttime 14 0),
     ClassTime.mk (dttime 14 5) (dttime 15 0)]

/-- Loop body of get_next_class_ms of middle_school_app.py, with explicit
fuel, mirroring get_next_class_fuel but using the Middle School
schedule table. -/
def get_next_class_ms_fuel (period : Nat) : Nat → Nat → Option (Nat × ClassTime)
  | 0, _ => none
  | fuel + 1, next_date =>
    if 5 ≤ pyWeekday next_date then
      get_next_class_ms_fuel period fuel (next_date + 1)
    else
      let order := PERIOD_ORDER_get (get_letter_day next_date)
      if period ∈ order then
        let idx := order.indexOf period
        let slots := get_schedule_for_day (pyWeekday next_date)
        if idx < slots.length then
          some (next_date, slots.getD idx (ClassTime.mk 0 0))
        else
          get_next_class_ms_fuel period fuel (next_date + 1)
      else
        get_next_class_ms_fuel period fuel (next_date + 1)

/-- get_next_class_ms of middle_school_app.py, with provably sufficient
fuel exactly as in get_next_class. -/
def get_next_class_ms (period from_date : Nat) : Option (Nat × ClassTime) :=
  get_next_class_ms_fuel period (FIRST_DAY - from_date + 11) (from_date + 1)

/-- Per-student middle-school configuration persisted by
middle_school_app.py (period, grade and lunch_choice keys of
middle_school_config.json). -/
structure MSConfig where
  period : Nat
  grade : Nat
  lunch_choice : String

/-- The schedule query made by StudentReminderApp.show_reminder of
middle_school_app.py for a stored configuration: only the period field is
ever passed to the rotation search. -/
def ms_next_class_for (config : MSConfig) (class_date : Nat) : Option (Nat × ClassTime) :=
  get_next_class_ms config.period class_date

/-- A date qualifies for a period when it is a weekday and the period
appears in the letter day's period order: the success condition of the
forward-search loops. -/
def qualifies (period q : Nat) : Prop :=
  pyWeekday q < 5 ∧ period ∈ PERIOD_ORDER_get (get_letter_day q)

instance (period q : Nat) : Decidable (qualifies period q) :=
  inferInstanceAs (Decidable (pyWeekday q < 5 ∧
    period ∈ PERIOD_ORDER_get (get_letter_day q)))

/-- Spec-side count (section 4.1 of the specification): the number of
school days (Mon-Fri) strictly after FIRST_DAY and up to and including d,
as the filtered length of the listing of the days FIRST_DAY+1, ..., d. -/
def school_days_after_epoch (d : Nat) : Nat :=
  ((List.range' (FIRST_DAY + 1) (d - FIRST_DAY)).filter
    (fun x => pyWeekday x < 5)).length

/-- Spec-side month/day order (section 4.3): (m1, d1) at or before
(m2, d2), comparing the month first, year-agnostically. -/
def md_le (m1 d1 m2 d2 : Nat) : Prop :=
  m1 < m2 ∨ (m1 = m2 ∧ d1 ≤ d2)

instance (m1 d1 m2 d2 : Nat) : Decidable (md_le m1 d1 m2 d2) :=
  inferInstanceAs (Decidable (m1 < m2 ∨ (m1 = m2 ∧ d1 ≤ d2)))

/-- Spec-side slot-list invariant (sections 3 and 8): five slots, each
ending strictly after it starts, consecutive slots strictly separated. -/
def slots_valid (slots : List ClassTime) : Prop :=
  slots.length = 5 ∧ (∀ c ∈ slots, c.start < c.endTime) ∧
    slots.Chain' (fun a b => a.endTime < b.start)


/-! Basic facts about the weekday counting loop. -/

theorem count_weekdays_succ (day steps : Nat) :
    count_weekdays day (steps + 1) =
      (if pyWeekday (day + 1) < 5 then 1 else 0) + count_weekdays (day + 1) steps := rfl

theorem count_weekdays_add (a b d : Nat) :
    count_weekdays d (a + b) = count_weekdays d a + count_weekdays (d + a) b := by
  induction a generalizing d with
  | zero => simp [count_weekdays]
  | succ a ih =>
    have h1 : a + 1 + b = (a + b) + 1 := by omega
    rw [h1, count_weekdays_succ, count_weekdays_succ, ih (d + 1)]
    have h2 : d + (a + 1) = d + 1 + a := by omega
    rw [h2]
    omega

theorem count_weekdays_one (d : Nat) :
    count_weekdays d 1 = if pyWeekday (d + 1) < 5 then 1 else 0 := by
  rw [count_weekdays_succ]
  simp [count_weekdays]

theorem count_weekdays_mono (d a b : Nat) (h : a ≤ b) :
    count_weekdays d a ≤ count_weekdays d b := by
  have h1 : b = a + (b - a) := by omega
  rw [h1, count_weekdays_add]
  omega

theorem count_weekdays_seven (d : Nat) : count_weekdays d 7 = 5 := by
  have h : (7 : Nat) = 1 + 1 + 1 + 1 + 1 + 1 + 1 := rfl
  rw [h]
  rw [count_weekdays_add, count_weekdays_add, count_weekdays_add,
    count_weekdays_add, count_weekdays_add, count_weekdays_add]
  simp only [count_weekdays_one, pyWeekday]
  split_ifs <;> omega

theorem count_weekdays_mul_seven (k : Nat) : ∀ d, count_weekdays d (7 * k) = 5 * k := by
  induction k with
  | zero => intro d; simp [count_weekdays]
  | succ k ih =>
    intro d
    have h : 7 * (k + 1) = 7 + 7 * k := by omega
    rw [h, count_weekdays_add, count_weekdays_seven, ih]
    omega

theorem count_weekdays_fortynine (d : Nat) : count_weekdays d 49 = 35 := by
  have h := count_weekdays_mul_seven 7 d
  norm_num at h
  exact h

theorem count_weekdays_shift_seven (k : Nat) : ∀ d, count_weekdays (d + 7) k = count_weekdays d k := by
  induction k with
  | zero => intro d; rfl
  | succ k ih =>
    intro d
    rw [count_weekdays_succ, count_weekdays_succ]
    have h1 : pyWeekday (d + 7 + 1) = pyWeekday (d + 1) := by unfold pyWeekday; omega
    have h2 : d + 7 + 1 = d + 1 + 7 := by omega
    rw [h1, h2, ih (d + 1)]

theorem count_weekdays_shift_fortynine (k d : Nat) :
    count_weekdays (d + 49) k = count_weekdays d k := by
  have h : d + 49 = d + 7 + 7 + 7 + 7 + 7 + 7 + 7 := by omega
  rw [h, count_weekdays_shift_seven, count_weekdays_shift_seven,
    count_weekdays_shift_seven, count_weekdays_shift_seven,
    count_weekdays_shift_seven, count_weekdays_shift_seven,
    count_weekdays_shift_seven]

theorem count_weekdays_all (k : Nat) : ∀ d, (∀ i, i < k → pyWeekday (d + 1 + i) < 5) →
    count_weekdays d k = k := by
  induction k with
  | zero => intro d _; rfl
  | succ k ih =>
    intro d h
    rw [count_weekdays_succ]
    have h0 : pyWeekday (d + 1) < 5 := by
      have := h 0 (by omega)
      simpa using this
    rw [if_pos h0, ih (d + 1) (fun i hi => by
      have := h (i + 1) (by omega)
      have he : d + 1 + (i + 1) = d + 1 + 1 + i := by omega
      rwa [he] at this)]
    omega

/-! Facts about the letter-day rotation and the static tables. -/

theorem LETTERS_length : LETTERS.length = 7 := rfl

theorem get_letter_day_of_le (d : Nat) (h : d ≤ FIRST_DAY) :
    get_letter_day d = "A" := by
  unfold get_letter_day
  rw [if_pos h]
  rfl

theorem get_letter_day_of_gt (d : Nat) (h : FIRST_DAY < d) :
    get_letter_day d =
      LETTERS.getD (count_weekdays FIRST_DAY (d - FIRST_DAY) % 7) "A" := by
  unfold get_letter_day
  rw [if_neg (by omega), LETTERS_length]

theorem get_letter_day_mem (d : Nat) : get_letter_day d ∈ LETTERS := by
  unfold get_letter_day
  split
  · decide
  · rw [LETTERS_length]
    have h7 : count_weekdays FIRST_DAY (d - FIRST_DAY) % 7 < LETTERS.length := by
      rw [LETTERS_length]; omega
    rw [List.getD_eq_getElem _ _ h7]
    exact List.getElem_mem h7

theorem PERIOD_ORDER_get_length (s : String) (h : s ∈ LETTERS) :
    (PERIOD_ORDER_get s).length = 5 := by
  fin_cases h <;> rfl

theorem get_time_slots_length (w : Bool) (lo : Option String) (g : String) :
    (get_time_slots w lo g).length = 5 := by
  cases w <;> rfl

theorem get_schedule_for_day_length (dow : Nat) :
    (get_schedule_for_day dow).length = 5 := by
  unfold get_schedule_for_day
  split
  · rfl
  · split <;> rfl

theorem pyWeekday_shift_fortynine (q : Nat) : pyWeekday (q + 49) = pyWeekday q := by
  unfold pyWeekday
  omega

theorem get_letter_day_shift_fortynine (q : Nat) (h : FIRST_DAY < q) :
    get_letter_day (q + 49) = get_letter_day q := by
  rw [get_letter_day_of_gt _ (by omega), get_letter_day_of_gt _ h]
  have h1 : q + 49 - FIRST_DAY = (q - FIRST_DAY) + 49 := by omega
  rw [h1, count_weekdays_add, count_weekdays_fortynine]
  have h2 : (count_weekdays FIRST_DAY (q - FIRST_DAY) + 35) % 7 =
      count_weekdays FIRST_DAY (q - FIRST_DAY) % 7 := by omega
  rw [h2]

theorem qualifies_shift_fortynine (p q : Nat) (h : FIRST_DAY < q) :
    qualifies p (q + 49) ↔ qualifies p q := by
  unfold qualifies
  rw [pyWeekday_shift_fortynine, get_letter_day_shift_fortynine q h]

set_option maxHeartbeats 4000000 in
set_option maxRecDepth 10000 in
theorem qualifies_window_base : ∀ j ∈ Finset.range 49, ∀ p ∈ Finset.range 7,
    ∃ i ∈ Finset.range 11, qualifies (p + 1) (FIRST_DAY + 1 + j + i) ∧
      count_weekdays (FIRST_DAY + j) (i + 1) ≤ 7 := by
  decide

theorem exists_qualifying_window : ∀ X, FIRST_DAY ≤ X → ∀ p, 1 ≤ p → p ≤ 7 →
    ∃ q, X < q ∧ q ≤ X + 11 ∧ qualifies p q ∧
      count_weekdays X (q - X) ≤ 7 := by
  intro X
  induction X using Nat.strong_induction_on with
  | _ X ih =>
    intro hX p hp1 hp7
    by_cases hsmall : X < FIRST_DAY + 49
    · have hj : X - FIRST_DAY ∈ Finset.range 49 := by
        rw [Finset.mem_range]; omega
      have hp : p - 1 ∈ Finset.range 7 := by
        rw [Finset.mem_range]; omega
      obtain ⟨i, hi, hq, hcnt⟩ := qualifies_window_base (X - FIRST_DAY) hj (p - 1) hp
      rw [Finset.mem_range] at hi
      have he : FIRST_DAY + 1 + (X - FIRST_DAY) + i = X + 1 + i := by omega
      have hp' : p - 1 + 1 = p := by omega
      rw [he, hp'] at hq
      have he2 : FIRST_DAY + (X - FIRST_DAY) = X := by omega
      rw [he2] at hcnt
      refine ⟨X + 1 + i, by omega, by omega, hq, ?_⟩
      have he3 : X + 1 + i - X = i + 1 := by omega
      rw [he3]
      exact hcnt
    · have h49 : FIRST_DAY ≤ X - 49 := by omega
      obtain ⟨q, hq1, hq2, hq3, hq4⟩ := ih (X - 49) (by omega) h49 p hp1 hp7
      refine ⟨q + 49, by omega, by omega, ?_, ?_⟩
      · rw [qualifies_shift_fortynine p q (by omega)]
        exact hq3
      · have he : q + 49 - X = q - (X - 49) := by omega
        rw [he]
        have he2 : X = (X - 49) + 49 := by omega
        rw [he2, count_weekdays_shift_fortynine]
        exact hq4

/-! Soundness and completeness of the forward-search loops. -/

theorem indexOf_lt_time_slots_length (p : Nat) (d : Nat) (lo : Option String)
    (g : String) (hmem : p ∈ PERIOD_ORDER_get (get_letter_day d)) :
    (PERIOD_ORDER_get (get_letter_day d)).indexOf p <
      (get_time_slots (pyWeekday d == 2) lo g).length := by
  rw [get_time_slots_length]
  have h5 : (PERIOD_ORDER_get (get_letter_day d)).length = 5 :=
    PERIOD_ORDER_get_length _ (get_letter_day_mem d)
  have := List.indexOf_lt_length.mpr hmem
  omega

theorem indexOf_lt_schedule_length (p : Nat) (d : Nat)
    (hmem : p ∈ PERIOD_ORDER_get (get_letter_day d)) :
    (PERIOD_ORDER_get (get_letter_day d)).indexOf p <
      (get_schedule_for_day (pyWeekday d)).length := by
  rw [get_schedule_for_day_length]
  have h5 : (PERIOD_ORDER_get (get_letter_day d)).length = 5 :=
    PERIOD_ORDER_get_length _ (get_letter_day_mem d)
  have := List.indexOf_lt_length.mpr hmem
  omega

theorem get_next_class_fuel_sound (p : Nat) (lo : Option String) (g : String) :
    ∀ fuel c d s, get_next_class_fuel p lo g fuel c = some (d, s) →
      c ≤ d ∧ qualifies p d ∧
      s = (get_time_slots (pyWeekday d == 2) lo g).getD
            ((PERIOD_ORDER_get (get_letter_day d)).indexOf p) (ClassTime.mk 0 0) ∧
      ∀ e, c ≤ e → e < d → ¬ qualifies p e := by
  intro fuel
  induction fuel with
  | zero => intro c d s h; simp [get_next_class_fuel] at h
  | succ fuel ih =>
    intro c d s h
    simp only [get_next_class_fuel] at h
    split_ifs at h with hw hmem hidx
    · -- weekend: recursive call from c + 1
      obtain ⟨h1, h2, h3, h4⟩ := ih (c + 1) d s h
      refine ⟨by omega, h2, h3, fun e he1 he2 => ?_⟩
      by_cases hec : e = c
      · subst hec
        intro hq
        exact absurd hq.1 (by omega)
      · exact h4 e (by omega) he2
    · -- school day, period meets, index in range: returns here
      simp only [Option.some.injEq, Prod.mk.injEq] at h
      obtain ⟨hd, hs⟩ := h
      subst hd
      refine ⟨le_refl c, ⟨by omega, hmem⟩, hs.symm, fun e he1 he2 => by omega⟩
    · -- school day, period meets, index out of range: impossible
      exact absurd (indexOf_lt_time_slots_length p c lo g hmem) hidx
    · -- school day, period does not meet: recursive call from c + 1
      obtain ⟨h1, h2, h3, h4⟩ := ih (c + 1) d s h
      refine ⟨by omega, h2, h3, fun e he1 he2 => ?_⟩
      by_cases hec : e = c
      · subst hec
        intro hq
        exact hmem hq.2
      · exact h4 e (by omega) he2

theorem get_next_class_fuel_complete (p : Nat) (lo : Option String) (g : String) :
    ∀ fuel c, (∃ q, c ≤ q ∧ q < c + fuel ∧ qualifies p q) →
      (get_next_class_fuel p lo g fuel c).isSome := by
  intro fuel
  induction fuel with
  | zero => rintro c ⟨q, h1, h2, _⟩; omega
  | succ fuel ih =>
  intro c h
  obtain ⟨q, hq1, hq2, hq3⟩ := h
  simp only [get_next_class_fuel]
  split_ifs with hw hmem hidx
  · -- weekend at c, so q is strictly later
    apply ih
    have hqc : q ≠ c := by
      intro he; subst he; exact absurd hq3.1 (by omega)
    exact ⟨q, by omega, by omega, hq3⟩
  · simp
  · exact absurd (indexOf_lt_time_slots_length p c lo g hmem) hidx
  · apply ih
    have hqc : q ≠ c := by
      intro he; subst he; exact hmem hq3.2
    exact ⟨q, by omega, by omega, hq3⟩

theorem get_next_class_ms_fuel_sound (p : Nat) :
    ∀ fuel c d s, get_next_class_ms_fuel p fuel c = some (d, s) →
      c ≤ d ∧ qualifies p d ∧
      s = (get_schedule_for_day (pyWeekday d)).getD
            ((PERIOD_ORDER_get (get_letter_day d)).indexOf p) (ClassTime.mk 0 0) ∧
      ∀ e, c ≤ e → e < d → ¬ qualifies p e := by
  intro fuel
  induction fuel with
  | zero => intro c d s h; simp [get_next_class_ms_fuel] at h
  | succ fuel ih =>
    intro c d s h
    simp only [get_next_class_ms_fuel] at h
    split_ifs at h with hw hmem hidx
    · obtain ⟨h1, h2, h3, h4⟩ := ih (c + 1) d s h
      refine ⟨by omega, h2, h3, fun e he1 he2 => ?_⟩
      by_cases hec : e = c
      · subst hec
        intro hq
        exact absurd hq.1 (by omega)
      · exact h4 e (by omega) he2
    · simp only [Option.some.injEq, Prod.mk.injEq] at h
      obtain ⟨hd, hs⟩ := h
      subst hd
      refine ⟨le_refl c, ⟨by omega, hmem⟩, hs.symm, fun e he1 he2 => by omega⟩
    · exact absurd (indexOf_lt_schedule_length p c hmem) hidx
    · obtain ⟨h1, h2, h3, h4⟩ := ih (c + 1) d s h
      refine ⟨by omega, h2, h3, fun e he1 he2 => ?_⟩
      by_cases hec : e = c
      · subst hec
        intro hq
        exact hmem hq.2
      · exact h4 e (by omega) he2

theorem get_next_class_ms_fuel_complete (p : Nat) :
    ∀ fuel c, (∃ q, c ≤ q ∧ q < c + fuel ∧ qualifies p q) →
      (get_next_class_ms_fuel p fuel c).isSome := by
  intro fuel
  induction fuel with
  | zero => rintro c ⟨q, h1, h2, _⟩; omega
  | succ fuel ih =>
  intro c h
  obtain ⟨q, hq1, hq2, hq3⟩ := h
  simp only [get_next_class_ms_fuel]
  split_ifs with hw hmem hidx
  · apply ih
    have hqc : q ≠ c := by
      intro he; subst he; exact absurd hq3.1 (by omega)
    exact ⟨q, by omega, by omega, hq3⟩
  · simp
  · exact absurd (indexOf_lt_schedule_length p c hmem) hidx
  · apply ih
    have hqc : q ≠ c := by
      intro he; subst he; exact hmem hq3.2
    exact ⟨q, by omega, by omega, hq3⟩

theorem exists_qualifying_for_search (p from_date : Nat) (hp1 : 1 ≤ p) (hp7 : p ≤ 7) :
    ∃ q, from_date + 1 ≤ q ∧ q < from_date + 1 + (FIRST_DAY - from_date + 11) ∧
      qualifies p q := by
  rcases le_or_lt FIRST_DAY from_date with hge | hlt
  · obtain ⟨q, h1, h2, h3, _⟩ := exists_qualifying_window from_date hge p hp1 hp7
    exact ⟨q, by omega, by omega, h3⟩
  · obtain ⟨q, h1, h2, h3, _⟩ :=
      exists_qualifying_window FIRST_DAY (le_refl _) p hp1 hp7
    exact ⟨q, by omega, by omega, h3⟩

/-! Bridge between the counting loop and the spec-side school-day count. -/

theorem count_weekdays_eq_filter_length : ∀ k day,
    count_weekdays day k =
      ((List.range' (day + 1) k).filter (fun x => pyWeekday x < 5)).length := by
  intro k
  induction k with
  | zero => intro day; rfl
  | succ k ih =>
    intro day
    rw [count_weekdays_succ, List.range'_succ, List.filter_cons]
    by_cases h : pyWeekday (day + 1) < 5
    · simp [h, ih (day + 1)]
      omega
    · simp [h, ih (day + 1)]

theorem LETTERS_indexOf_getD : ∀ k, k < 7 →
    LETTERS.indexOf (LETTERS.getD k "A") = k := by decide

/-- C3: get_letter_day is total, returns the first label for every date at
or before the epoch, and otherwise returns the label indexed by the number
of school days strictly after the epoch up to and including the date,
reduced modulo 7. -/
theorem C3_letter_day_formula : ∀ d,
    get_letter_day d =
      if d ≤ FIRST_DAY then "A"
      else LETTERS.getD (school_days_after_epoch d % 7) "A" := by
  intro d
  by_cases h : d ≤ FIRST_DAY
  · rw [if_pos h, get_letter_day_of_le d h]
  · rw [if_neg h, get_letter_day_of_gt d (by omega)]
    unfold school_days_after_epoch
    rw [← count_weekdays_eq_filter_length]

/-- C4 counterexample: 2025-08-12 and 2025-08-13 (days FIRST_DAY - 2 and
FIRST_DAY - 1, a Tuesday and a Wednesday, consecutive school days with no
weekend between them) both map to letter "A", so the letter of the later
day is not the letter of the earlier day advanced by one position, which
refutes the claim as stated for pre-epoch school days. -/
theorem C4_advance_counterexample :
    pyWeekday (FIRST_DAY - 2) < 5 ∧ pyWeekday (FIRST_DAY - 1) < 5 ∧
    FIRST_DAY - 2 < FIRST_DAY - 1 ∧ FIRST_DAY - 1 - (FIRST_DAY - 2) = 1 ∧
    get_letter_day (FIRST_DAY - 2) = "A" ∧
    get_letter_day (FIRST_DAY - 1) = "A" ∧
    get_letter_day (FIRST_DAY - 1) ≠
      LETTERS.getD ((LETTERS.indexOf (get_letter_day (FIRST_DAY - 2)) +
        (FIRST_DAY - 1 - (FIRST_DAY - 2))) % 7) "A" := by
  decide

/-- C4 as amended: for school days d1 < d2 with no weekend day between
them and with d1 at or after the epoch, the letter of d2 is the letter of
d1 advanced by d2 - d1 positions modulo 7 in the label cycle; moreover
2025-08-14 is "A", 2025-08-15 is "B" and 2025-08-18 (the Monday after the
weekend) is "C". -/
theorem C4_advance_amended :
    (∀ d1 d2, FIRST_DAY ≤ d1 → d1 < d2 → pyWeekday d1 < 5 →
      (∀ e, d1 < e → e ≤ d2 → pyWeekday e < 5) →
      get_letter_day d2 =
        LETTERS.getD ((LETTERS.indexOf (get_letter_day d1) + (d2 - d1)) % 7) "A") ∧
    get_letter_day FIRST_DAY = "A" ∧
    get_letter_day (FIRST_DAY + 1) = "B" ∧
    get_letter_day (FIRST_DAY + 4) = "C" := by
  refine ⟨?_, by decide, by decide, by decide⟩
  intro d1 d2 h1 h12 hw1 hall
  have hcnt : count_weekdays FIRST_DAY (d2 - FIRST_DAY) =
      count_weekdays FIRST_DAY (d1 - FIRST_DAY) + (d2 - d1) := by
    have hsplit : d2 - FIRST_DAY = (d1 - FIRST_DAY) + (d2 - d1) := by omega
    rw [hsplit, count_weekdays_add]
    have he : FIRST_DAY + (d1 - FIRST_DAY) = d1 := by omega
    rw [he, count_weekdays_all (d2 - d1) d1
      (fun i hi => hall (d1 + 1 + i) (by omega) (by omega))]
  rcases eq_or_lt_of_le h1 with heq | hgt
  · subst heq
    rw [get_letter_day_of_le FIRST_DAY (le_refl _), get_letter_day_of_gt d2 (by omega)]
    have hz : count_weekdays FIRST_DAY (FIRST_DAY - FIRST_DAY) = 0 := by
      simp [count_weekdays]
    rw [hz] at hcnt
    rw [hcnt]
    have hidx : LETTERS.indexOf "A" = 0 := by decide
    rw [hidx]
  · rw [get_letter_day_of_gt d2 (by omega), get_letter_day_of_gt d1 hgt, hcnt]
    rw [LETTERS_indexOf_getD (count_weekdays FIRST_DAY (d1 - FIRST_DAY) % 7) (by omega)]
    have harg : (count_weekdays FIRST_DAY (d1 - FIRST_DAY) + (d2 - d1)) % 7 =
        (count_weekdays FIRST_DAY (d1 - FIRST_DAY) % 7 + (d2 - d1)) % 7 := by
      omega
    rw [harg]

/-- C4 amended witness at d1 = 2025-08-14 and d2 = 2025-08-15. -/
theorem C4_advance_amended_witness :
    get_letter_day (FIRST_DAY + 1) =
      LETTERS.getD ((LETTERS.indexOf (get_letter_day FIRST_DAY) +
        (FIRST_DAY + 1 - FIRST_DAY)) % 7) "A" :=
  C4_advance_amended.1 FIRST_DAY (FIRST_DAY + 1) (le_refl _) (by omega) (by decide)
    (fun e he1 he2 => by
      have he : e = FIRST_DAY + 1 := by omega
      subst he
      decide)

theorem get_ms_lunch_window_for_grade8 (m d : Nat) :
    get_ms_lunch_window_for m d 8 =
      if (10 < m ∨ (m = 10 ∧ 6 ≤ d)) ∧ (m < 10 ∨ (m = 10 ∧ d ≤ 10)) then
        MSLunchWindow.mk (hm 11 55) (hm 12 15)
      else if (11 < m ∨ (m = 11 ∧ 17 ≤ d)) ∧ (m < 11 ∨ (m = 11 ∧ d ≤ 21)) then
        MSLunchWindow.mk (hm 11 45) (hm 12 5)
      else MSLunchWindow.mk (hm 12 5) (hm 12 25) := by
  unfold get_ms_lunch_window_for MS_LUNCH_OVERRIDES ms_override_lookup
  by_cases h1 : (10 < m ∨ (m = 10 ∧ 6 ≤ d)) ∧ (m < 10 ∨ (m = 10 ∧ d ≤ 10))
  · rw [if_pos h1, if_pos h1]
    rfl
  · rw [if_neg h1, if_neg h1]
    unfold ms_override_lookup
    by_cases h2 : (11 < m ∨ (m = 11 ∧ 17 ≤ d)) ∧ (m < 11 ∨ (m = 11 ∧ d ≤ 21))
    · rw [if_pos h2, if_pos h2]
      rfl
    · rw [if_neg h2, if_neg h2]
      rfl

/-- C5: for grade key 8 the midday lookup selects an override exactly when
the month/day of the query date lies inside a declared override range,
compared year-agnostically and inclusively at both ends; in particular
October 8 and the range end October 10 yield the October override window
and October 11 yields the regular grade-8 window. -/
theorem C5_midday_override_selection :
    (∀ m d, get_ms_lunch_window_for m d 8 =
      if md_le 10 6 m d ∧ md_le m d 10 10 then MSLunchWindow.mk (hm 11 55) (hm 12 15)
      else if md_le 11 17 m d ∧ md_le m d 11 21 then MSLunchWindow.mk (hm 11 45) (hm 12 5)
      else MSLunchWindow.mk (hm 12 5) (hm 12 25)) ∧
    get_ms_lunch_window_for 10 8 8 = MSLunchWindow.mk (hm 11 55) (hm 12 15) ∧
    get_ms_lunch_window_for 10 10 8 = MSLunchWindow.mk (hm 11 55) (hm 12 15) ∧
    get_ms_lunch_window_for 10 11 8 = MSLunchWindow.mk (hm 12 5) (hm 12 25) := by
  refine ⟨?_, by decide, by decide, by decide⟩
  intro m d
  rw [get_ms_lunch_window_for_grade8 m d]
  unfold md_le
  split_ifs <;> first | rfl | omega

/-- C6: every slot list the two schedule tables can return consists of
exactly five blocks, each ending strictly after it starts, with each block
starting strictly after the previous one ends, for every weekday variant
and every lunch selector. -/
theorem C6_slot_list_invariants :
    (∀ w lo g, slots_valid (get_time_slots w lo g)) ∧
    (∀ dow, slots_valid (get_schedule_for_day dow)) := by
  constructor
  · intro w lo g
    simp only [get_time_slots]
    by_cases h : selected_lunch_option lo g = "1"
    · rw [if_pos h]
      cases w <;> simp [slots_valid, List.chain'_cons, dttime]
    · rw [if_neg h]
      cases w <;> simp [slots_valid, List.chain'_cons, dttime]
  · intro dow
    unfold get_schedule_for_day
    split_ifs <;> simp [slots_valid, List.chain'_cons, dttime]

/-- C7: each of the seven rotation labels maps to exactly five distinct
periods in 1..7, and each period in 1..7 occurs in exactly five of the
seven label entries and is absent from the other two. -/
theorem C7_period_order_invariants :
    PERIOD_ORDER.length = 7 ∧
    (∀ e ∈ PERIOD_ORDER, e.2.length = 5 ∧ e.2.Nodup ∧ ∀ x ∈ e.2, 1 ≤ x ∧ x ≤ 7) ∧
    (∀ p, 1 ≤ p → p ≤ 7 →
      (PERIOD_ORDER.filter (fun e => decide (p ∈ e.2))).length = 5 ∧
      (PERIOD_ORDER.filter (fun e => decide (p ∉ e.2))).length = 2) := by
  refine ⟨rfl, by decide, ?_⟩
  intro p h1 h7
  interval_cases p <;> exact ⟨by decide, by decide⟩

/-- C7 witness at period 3. -/
theorem C7_period_order_invariants_witness :
    (1 ≤ 3 ∧ 3 ≤ 7) ∧
    (PERIOD_ORDER.filter (fun e => decide ((3 : Nat) ∈ e.2))).length = 5 ∧
    (PERIOD_ORDER.filter (fun e => decide ((3 : Nat) ∉ e.2))).length = 2 :=
  ⟨⟨by decide, by decide⟩, C7_period_order_invariants.2.2 3 (by decide) (by decide)⟩

/-- C8: switching the lunch selector between "1" and "2" leaves the slots
at indices 0, 1, 3 and 4 unchanged and perturbs only the midday block at
index 2, for both weekday variants and any global default. -/
theorem C8_lunch_option_frame : ∀ w g,
    (get_time_slots w (some "1") g).getD 0 (ClassTime.mk 0 0) =
      (get_time_slots w (some "2") g).getD 0 (ClassTime.mk 0 0) ∧
    (get_time_slots w (some "1") g).getD 1 (ClassTime.mk 0 0) =
      (get_time_slots w (some "2") g).getD 1 (ClassTime.mk 0 0) ∧
    (get_time_slots w (some "1") g).getD 3 (ClassTime.mk 0 0) =
      (get_time_slots w (some "2") g).getD 3 (ClassTime.mk 0 0) ∧
    (get_time_slots w (some "1") g).getD 4 (ClassTime.mk 0 0) =
      (get_time_slots w (some "2") g).getD 4 (ClassTime.mk 0 0) ∧
    (get_time_slots w (some "1") g).getD 2 (ClassTime.mk 0 0) ≠
      (get_time_slots w (some "2") g).getD 2 (ClassTime.mk 0 0) := by
  intro w g
  cases w <;>
    exact ⟨rfl, rfl, rfl, rfl,
      show ClassTime.mk (dttime 12 5) (dttime 13 5) ≠
        ClassTime.mk (dttime 11 25) (dttime 12 25) by decide⟩

/-- C9: the middle-school lunch lookup never fails: a grade outside the
table resolves to the regular grade-8 window for every date; and the
upper-school slot table resolves every lunch selector other than "1",
recognized or not, to the second-lunch midday block under the module
default. -/
theorem C9_unrecognized_selector_fallback :
    (∀ m d grade, grade ≠ 6 → grade ≠ 7 → grade ≠ 8 →
      get_ms_lunch_window_for m d grade = MSLunchWindow.mk (hm 12 5) (hm 12 25)) ∧
    (∀ w s, s ≠ some "1" →
      (get_time_slots w s LUNCH_OPTION).getD 2 (ClassTime.mk 0 0) =
        ClassTime.mk (dttime 11 25) (dttime 12 25)) := by
  constructor
  · intro m d grade h6 h7 h8
    have e8 : (grade == 8) = false := by simp [h8]
    have e6 : (grade == 6) = false := by simp [h6]
    have e7 : (grade == 7) = false := by simp [h7]
    simp [get_ms_lunch_window_for, MS_LUNCH_OVERRIDES, ms_override_lookup,
      MS_LUNCH_WINDOWS_ALT_OCT6, MS_LUNCH_WINDOWS_ALT_NOV17,
      MS_LUNCH_WINDOWS_REGULAR, List.lookup, e6, e7, e8, hm]
  · intro w s hs
    match s with
    | none => cases w <;> rfl
    | some x =>
      have hx : x ≠ "1" := fun he => hs (by rw [he])
      by_cases hempty : x = ""
      · subst hempty
        cases w <;> rfl
      · have hsel : selected_lunch_option (some x) LUNCH_OPTION = x := by
          simp [selected_lunch_option, hempty]
        cases w <;> simp [get_time_slots, hsel, hx, dttime]

/-- C9 witness: grade 9 on October 8 resolves to the regular grade-8
window, and the unrecognized selector "x" resolves to the second-lunch
midday block. -/
theorem C9_unrecognized_selector_fallback_witness :
    ((9 : Nat) ≠ 6 ∧ (9 : Nat) ≠ 7 ∧ (9 : Nat) ≠ 8 ∧
      get_ms_lunch_window_for 10 8 9 = MSLunchWindow.mk (hm 12 5) (hm 12 25)) ∧
    (some "x" ≠ some "1" ∧
      (get_time_slots false (some "x") LUNCH_OPTION).getD 2 (ClassTime.mk 0 0) =
        ClassTime.mk (dttime 11 25) (dttime 12 25)) :=
  ⟨⟨by decide, by decide, by decide,
    C9_unrecognized_selector_fallback.1 10 8 9 (by decide) (by decide) (by decide)⟩,
   ⟨by decide, C9_unrecognized_selector_fallback.2 false (some "x") (by decide)⟩⟩

/-- C1: for every period 1..7, every starting date and every lunch
selector, get_next_class returns the earliest date strictly after the
starting date that is a weekday whose letter-day period order contains the
period, paired with the slot of that day's time-slot list at the index the
period occupies in the order; in particular the next occurrence of period
6 after 2025-08-14 is 2025-08-15 with the slot at index 0. -/
theorem C1_next_occurrence_correct :
    (∀ p from_date lo g, 1 ≤ p → p ≤ 7 →
      ∃ d s, get_next_class p from_date lo g = some (d, s) ∧
        from_date < d ∧ pyWeekday d < 5 ∧
        p ∈ PERIOD_ORDER_get (get_letter_day d) ∧
        (∀ e, from_date < e → e < d →
          ¬ (pyWeekday e < 5 ∧ p ∈ PERIOD_ORDER_get (get_letter_day e))) ∧
        s = (get_time_slots (pyWeekday d == 2) lo g).getD
              ((PERIOD_ORDER_get (get_letter_day d)).indexOf p) (ClassTime.mk 0 0)) ∧
    get_next_class 6 FIRST_DAY none LUNCH_OPTION =
      some (FIRST_DAY + 1,
        (get_time_slots (pyWeekday (FIRST_DAY + 1) == 2) none LUNCH_OPTION).getD 0
          (ClassTime.mk 0 0)) := by
  constructor
  · intro p from_date lo g hp1 hp7
    have hex := exists_qualifying_for_search p from_date hp1 hp7
    have hsome := get_next_class_fuel_complete p lo g
      (FIRST_DAY - from_date + 11) (from_date + 1) hex
    rw [Option.isSome_iff_exists] at hsome
    obtain ⟨⟨d, s⟩, hds⟩ := hsome
    obtain ⟨hc, hq, hs, hmin⟩ := get_next_class_fuel_sound p lo g _ _ _ _ hds
    exact ⟨d, s, hds, by omega, hq.1, hq.2,
      fun e he1 he2 hbad => hmin e (by omega) he2 hbad, hs⟩
  · decide

/-- C1 witness at period 6, from 2025-08-14, with no per-call selector and
the default global selector. -/
theorem C1_next_occurrence_correct_witness :
    (1 ≤ 6 ∧ 6 ≤ 7) ∧
    ∃ d s, get_next_class 6 FIRST_DAY none LUNCH_OPTION = some (d, s) ∧
      FIRST_DAY < d ∧ pyWeekday d < 5 ∧
      6 ∈ PERIOD_ORDER_get (get_letter_day d) ∧
      (∀ e, FIRST_DAY < e → e < d →
        ¬ (pyWeekday e < 5 ∧ 6 ∈ PERIOD_ORDER_get (get_letter_day e))) ∧
      s = (get_time_slots (pyWeekday d == 2) none LUNCH_OPTION).getD
            ((PERIOD_ORDER_get (get_letter_day d)).indexOf 6) (ClassTime.mk 0 0) :=
  ⟨⟨by decide, by decide⟩,
   C1_next_occurrence_correct.1 6 FIRST_DAY none LUNCH_OPTION (by decide) (by decide)⟩

/-- C2 counterexample: for period 6 and fromDate 2025-08-01 (13 days
before the epoch) no day in the 11 calendar days after fromDate is a
qualifying day, although that window contains exactly 7 school days; the
11 loop iterations covering that window accordingly return none, and the
actual result is 2025-08-15, the first qualifying day, which is 14
calendar days and 10 school days after fromDate, exceeding both stated
bounds. -/
theorem C2_search_bound_counterexample :
    (∀ e ∈ Finset.Icc (FIRST_DAY - 13 + 1) (FIRST_DAY - 13 + 11), ¬ qualifies 6 e) ∧
    count_weekdays (FIRST_DAY - 13) 11 = 7 ∧
    get_next_class_fuel 6 none LUNCH_OPTION 11 (FIRST_DAY - 13 + 1) = none ∧
    get_next_class 6 (FIRST_DAY - 13) none LUNCH_OPTION =
      some (FIRST_DAY + 1, ClassTime.mk (dttime 8 30) (dttime 9 30)) ∧
    qualifies 6 (FIRST_DAY + 1) ∧
    (FIRST_DAY - 13) + 11 < FIRST_DAY + 1 ∧
    count_weekdays (FIRST_DAY - 13) (FIRST_DAY + 1 - (FIRST_DAY - 13)) = 10 := by
  refine ⟨by decide, by decide, by decide, by decide, by decide, by decide, by decide⟩

/-- C2 as amended: for fromDates at or after the epoch the search finds a
qualifying day (a weekday whose letter-day period order contains the
period) within at most 11 calendar days and at most 7 school days after
fromDate, for both variants; and for every fromDate (also pre-epoch ones,
where the bound can be exceeded) the search still returns a result for
every valid period, so the unbounded loops always return. -/
theorem C2_termination_amended :
    (∀ p from_date lo g, 1 ≤ p → p ≤ 7 → FIRST_DAY ≤ from_date →
      ∃ d s, get_next_class p from_date lo g = some (d, s) ∧
        pyWeekday d < 5 ∧ p ∈ PERIOD_ORDER_get (get_letter_day d) ∧
        d ≤ from_date + 11 ∧
        count_weekdays from_date (d - from_date) ≤ 7) ∧
    (∀ p from_date, 1 ≤ p → p ≤ 7 → FIRST_DAY ≤ from_date →
      ∃ d s, get_next_class_ms p from_date = some (d, s) ∧
        pyWeekday d < 5 ∧ p ∈ PERIOD_ORDER_get (get_letter_day d) ∧
        d ≤ from_date + 11 ∧
        count_weekdays from_date (d - from_date) ≤ 7) ∧
    (∀ p from_date lo g, 1 ≤ p → p ≤ 7 →
      (get_next_class p from_date lo g).isSome) ∧
    (∀ p from_date, 1 ≤ p → p ≤ 7 → (get_next_class_ms p from_date).isSome) := by
  refine ⟨?_, ?_, ?_, ?_⟩
  · intro p from_date lo g hp1 hp7 hge
    obtain ⟨q, hq1, hq2, hq3, hq4⟩ := exists_qualifying_window from_date hge p hp1 hp7
    have hsome := get_next_class_fuel_complete p lo g
      (FIRST_DAY - from_date + 11) (from_date + 1) ⟨q, by omega, by omega, hq3⟩
    rw [Option.isSome_iff_exists] at hsome
    obtain ⟨⟨d, s⟩, hds⟩ := hsome
    obtain ⟨hc, hq, hs, hmin⟩ := get_next_class_fuel_sound p lo g _ _ _ _ hds
    have hdq : d ≤ q := by
      by_contra hcon
      exact hmin q (by omega) (by omega) hq3
    refine ⟨d, s, hds, hq.1, hq.2, by omega, ?_⟩
    calc count_weekdays from_date (d - from_date)
        ≤ count_weekdays from_date (q - from_date) :=
          count_weekdays_mono from_date _ _ (by omega)
      _ ≤ 7 := hq4
  · intro p from_date hp1 hp7 hge
    obtain ⟨q, hq1, hq2, hq3, hq4⟩ := exists_qualifying_window from_date hge p hp1 hp7
    have hsome := get_next_class_ms_fuel_complete p
      (FIRST_DAY - from_date + 11) (from_date + 1) ⟨q, by omega, by omega, hq3⟩
    rw [Option.isSome_iff_exists] at hsome
    obtain ⟨⟨d, s⟩, hds⟩ := hsome
    obtain ⟨hc, hq, hs, hmin⟩ := get_next_class_ms_fuel_sound p _ _ _ _ hds
    have hdq : d ≤ q := by
      by_contra hcon
      exact hmin q (by omega) (by omega) hq3
    refine ⟨d, s, hds, hq.1, hq.2, by omega, ?_⟩
    calc count_weekdays from_date (d - from_date)
        ≤ count_weekdays from_date (q - from_date) :=
          count_weekdays_mono from_date _ _ (by omega)
      _ ≤ 7 := hq4
  · intro p from_date lo g hp1 hp7
    exact get_next_class_fuel_complete p lo g _ _
      (exists_qualifying_for_search p from_date hp1 hp7)
  · intro p from_date hp1 hp7
    exact get_next_class_ms_fuel_complete p _ _
      (exists_qualifying_for_search p from_date hp1 hp7)

/-- C2 amended witness at period 1, from the epoch date itself. -/
theorem C2_termination_amended_witness :
    (1 ≤ 1 ∧ 1 ≤ 7 ∧ FIRST_DAY ≤ FIRST_DAY) ∧
    (∃ d s, get_next_class 1 FIRST_DAY none LUNCH_OPTION = some (d, s) ∧
      pyWeekday d < 5 ∧ 1 ∈ PERIOD_ORDER_get (get_letter_day d) ∧
      d ≤ FIRST_DAY + 11 ∧
      count_weekdays FIRST_DAY (d - FIRST_DAY) ≤ 7) ∧
    (get_next_class_ms 7 FIRST_DAY).isSome :=
  ⟨⟨by decide, by decide, le_refl _⟩,
   C2_termination_amended.1 1 FIRST_DAY none LUNCH_OPTION (by decide) (by decide)
     (le_refl _),
   C2_termination_amended.2.2.2 7 FIRST_DAY (by decide) (by decide)⟩

/-- C10: in the middle-school variant the next-occurrence result depends
only on the stored period: two configurations agreeing on the period and
differing arbitrarily in grade and lunch choice produce identical
(date, ClassTime) results; moreover every ClassTime that
get_next_class_ms returns is an element of the grade-independent weekday
schedule table, so the lunch-override tables influence no returned slot. -/
theorem C10_grade_lunch_noninterference :
    (∀ config1 config2 : MSConfig, config1.period = config2.period →
      ∀ d, ms_next_class_for config1 d = ms_next_class_for config2 d) ∧
    (∀ p from_date d s, get_next_class_ms p from_date = some (d, s) →
      s ∈ get_schedule_for_day (pyWeekday d)) := by
  constructor
  · intro config1 config2 h d
    unfold ms_next_class_for
    rw [h]
  · intro p from_date d s h
    obtain ⟨_, hq, hs, _⟩ := get_next_class_ms_fuel_sound p _ _ _ _ h
    rw [hs]
    have hidx := indexOf_lt_schedule_length p d hq.2
    rw [List.getD_eq_getElem _ _ hidx]
    exact List.getElem_mem hidx

/-- C10 witness: two configurations with period 3 but different grades and
lunch choices give the same result when queried from the epoch date. -/
theorem C10_grade_lunch_noninterference_witness :
    ms_next_class_for (MSConfig.mk 3 6 "first") FIRST_DAY =
      ms_next_class_for (MSConfig.mk 3 8 "second") FIRST_DAY :=
  C10_grade_lunch_noninterference.1
    (MSConfig.mk 3 6 "first") (MSConfig.mk 3 8 "second") rfl FIRST_DAY
